import Mathlib

/-!
Verification of the InstNoth installer simulator (`src/main.rs`): a shallow
embedding of its script parser, dependency resolver and command interpreter,
together with theorems settling the specification's claims about them.

Modelling conventions:
* Rust `String`/`&str` values are Lean `String`s; the character-level scanning
  done by the parser is carried out on `List Char` (the `data` of a `String`).
* Rust `u64`/`u8` are `Nat`; the bounds (`2 ^ 64 - 1`, `255`) are enforced
  exactly where the Rust integer parsers enforce them (overflow makes
  `str::parse` fail, which the code turns into the documented defaults).
* Terminal rendering (colours, progress bars, spinners, `println!`) is pure
  narration carrying no state, and the specification places rendering out of
  scope, so printed text is not modelled; `thread::sleep` durations are
  modelled as accumulated milliseconds, and a Rust panic is modelled as
  `Option.none`.
* The real filesystem is modelled as an association list from path to file
  content (the specification's file-loading collaborator
  `load(path) -> text | IOError`).
* Ambient `rand::thread_rng` draws are modelled by a stream `Nat → Nat`
  where the drawn values influence an observable quantity (the download
  loop's chunk sizes and sleeps); all other draws only feed narration
  (synthetic hardware facts, printed counts) and are not modelled, as the
  specification declares the fact supplier an external collaborator.
-/

deriving instance DecidableEq for Except

/-- ASCII whitespace, as `str::trim` strips it on the scripts' ASCII lines. -/
def isWSChar (c : Char) : Bool := c = ' ' || c = '\t' || c = '\n' || c = '\r'

/-- Rust `str::trim` on one line (both ends). -/
def trimL (l : List Char) : List Char :=
  ((l.dropWhile isWSChar).reverse.dropWhile isWSChar).reverse

/-- Pack a character list back into a `String`. -/
def ofChars (l : List Char) : String := ⟨l⟩

/-- `Command` from `src/main.rs`: the closed vocabulary of script commands. -/
inductive Command where
  | Message (msg : List Char)
  | Delay (ms : Nat)
  | Progress (pct : Nat)
  | CreateDir (path : List Char)
  | Download (url : List Char) (size : Nat)
  | Extract (from_ : List Char) (to_ : List Char)
  | InstallDep (name : List Char) (version : List Char)
  | Configure (key : List Char) (value : List Char)
  | Cleanup
  | Success (msg : List Char)
  | Error (msg : List Char)
  | Warning (msg : List Char)
  | CopyFile (from_ : List Char) (to_ : List Char)
  | Symlink (from_ : List Char) (to_ : List Char)
  | SetPermission (path : List Char) (mode : List Char)
  | RunScript (script : List Char)
  | CheckDep (dep : List Char)
  | WriteConfig (path : List Char) (content : List Char)
  | DetectCpu
  | DetectMemory
  | DetectDisk
  | DetectGpu
  | DetectNetwork
  | DetectOs
  | DetectKernel
  | DetectBios
  | RunTest (name : List Char) (duration : Nat)
  | LoadKernelModule (module : List Char)
  | UnloadKernelModule (module : List Char)
  | UpdateInitramfs
  | UpdateGrub
  | MountPartition (device : List Char) (mount_point : List Char)
  | UnmountPartition (mount_point : List Char)
  | FormatPartition (device : List Char) (fs_type : List Char)
  | CreatePartition (device : List Char) (size : List Char)
  | SetHostname (hostname : List Char)
  | SetTimezone (tz : List Char)
  | SetLocale (locale : List Char)
  | CreateUser (username : List Char) (groups : List Char)
  | SetPassword (user : List Char)
  | EnableService (service : List Char)
  | DisableService (service : List Char)
  | StartService (service : List Char)
  | StopService (service : List Char)
  | InstallBootloader (target : List Char)
  | GenerateFstab
  | CheckIntegrity (target : List Char)
  | VerifySignature (file : List Char)
  | CompileKernel (version : List Char)
  | InstallPackages (packages : List Char)
  | UpdateSystem
  | SyncTime
  | TestHardware (component : List Char)
  | BenchmarkCpu
  | BenchmarkMemory
  | BenchmarkDisk
  | NetworkConfig (interface : List Char) (config : List Char)
  | FirewallRule (rule : List Char)
  | ScanHardware
  | DetectDrivers
  | InstallDriver (driver : List Char)

/-- Injective packing of a `Command` into (tag, nat field, string fields),
used only to obtain a decidable equality whose term stays shallow (the
automatically derived instance produces one matcher too large to audit). -/
def cmdEnc : Command → Nat × Nat × List Char × List Char
  | .Message x1 => (0, 0, x1, [])
  | .Delay n1 => (1, n1, [], [])
  | .Progress n1 => (2, n1, [], [])
  | .CreateDir x1 => (3, 0, x1, [])
  | .Download x1 n1 => (4, n1, x1, [])
  | .Extract x1 x2 => (5, 0, x1, x2)
  | .InstallDep x1 x2 => (6, 0, x1, x2)
  | .Configure x1 x2 => (7, 0, x1, x2)
  | .Cleanup => (8, 0, [], [])
  | .Success x1 => (9, 0, x1, [])
  | .Error x1 => (10, 0, x1, [])
  | .Warning x1 => (11, 0, x1, [])
  | .CopyFile x1 x2 => (12, 0, x1, x2)
  | .Symlink x1 x2 => (13, 0, x1, x2)
  | .SetPermission x1 x2 => (14, 0, x1, x2)
  | .RunScript x1 => (15, 0, x1, [])
  | .CheckDep x1 => (16, 0, x1, [])
  | .WriteConfig x1 x2 => (17, 0, x1, x2)
  | .DetectCpu => (18, 0, [], [])
  | .DetectMemory => (19, 0, [], [])
  | .DetectDisk => (20, 0, [], [])
  | .DetectGpu => (21, 0, [], [])
  | .DetectNetwork => (22, 0, [], [])
  | .DetectOs => (23, 0, [], [])
  | .DetectKernel => (24, 0, [], [])
  | .DetectBios => (25, 0, [], [])
  | .RunTest x1 n1 => (26, n1, x1, [])
  | .LoadKernelModule x1 => (27, 0, x1, [])
  | .UnloadKernelModule x1 => (28, 0, x1, [])
  | .UpdateInitramfs => (29, 0, [], [])
  | .UpdateGrub => (30, 0, [], [])
  | .MountPartition x1 x2 => (31, 0, x1, x2)
  | .UnmountPartition x1 => (32, 0, x1, [])
  | .FormatPartition x1 x2 => (33, 0, x1, x2)
  | .CreatePartition x1 x2 => (34, 0, x1, x2)
  | .SetHostname x1 => (35, 0, x1, [])
  | .SetTimezone x1 => (36, 0, x1, [])
  | .SetLocale x1 => (37, 0, x1, [])
  | .CreateUser x1 x2 => (38, 0, x1, x2)
  | .SetPassword x1 => (39, 0, x1, [])
  | .EnableService x1 => (40, 0, x1, [])
  | .DisableService x1 => (41, 0, x1, [])
  | .StartService x1 => (42, 0, x1, [])
  | .StopService x1 => (43, 0, x1, [])
  | .InstallBootloader x1 => (44, 0, x1, [])
  | .GenerateFstab => (45, 0, [], [])
  | .CheckIntegrity x1 => (46, 0, x1, [])
  | .VerifySignature x1 => (47, 0, x1, [])
  | .CompileKernel x1 => (48, 0, x1, [])
  | .InstallPackages x1 => (49, 0, x1, [])
  | .UpdateSystem => (50, 0, [], [])
  | .SyncTime => (51, 0, [], [])
  | .TestHardware x1 => (52, 0, x1, [])
  | .BenchmarkCpu => (53, 0, [], [])
  | .BenchmarkMemory => (54, 0, [], [])
  | .BenchmarkDisk => (55, 0, [], [])
  | .NetworkConfig x1 x2 => (56, 0, x1, x2)
  | .FirewallRule x1 => (57, 0, x1, [])
  | .ScanHardware => (58, 0, [], [])
  | .DetectDrivers => (59, 0, [], [])
  | .InstallDriver x1 => (60, 0, x1, [])

/-- Partial inverse of `cmdEnc`. -/
def cmdDec : Nat × Nat × List Char × List Char → Option Command
  | (0, _, s1, _) => some (.Message s1)
  | (1, n1, _, _) => some (.Delay n1)
  | (2, n1, _, _) => some (.Progress n1)
  | (3, _, s1, _) => some (.CreateDir s1)
  | (4, n1, s1, _) => some (.Download s1 n1)
  | (5, _, s1, s2) => some (.Extract s1 s2)
  | (6, _, s1, s2) => some (.InstallDep s1 s2)
  | (7, _, s1, s2) => some (.Configure s1 s2)
  | (8, _, _, _) => some (.Cleanup)
  | (9, _, s1, _) => some (.Success s1)
  | (10, _, s1, _) => some (.Error s1)
  | (11, _, s1, _) => some (.Warning s1)
  | (12, _, s1, s2) => some (.CopyFile s1 s2)
  | (13, _, s1, s2) => some (.Symlink s1 s2)
  | (14, _, s1, s2) => some (.SetPermission s1 s2)
  | (15, _, s1, _) => some (.RunScript s1)
  | (16, _, s1, _) => some (.CheckDep s1)
  | (17, _, s1, s2) => some (.WriteConfig s1 s2)
  | (18, _, _, _) => some (.DetectCpu)
  | (19, _, _, _) => some (.DetectMemory)
  | (20, _, _, _) => some (.DetectDisk)
  | (21, _, _, _) => some (.DetectGpu)
  | (22, _, _, _) => some (.DetectNetwork)
  | (23, _, _, _) => some (.DetectOs)
  | (24, _, _, _) => some (.DetectKernel)
  | (25, _, _, _) => some (.DetectBios)
  | (26, n1, s1, _) => some (.RunTest s1 n1)
  | (27, _, s1, _) => some (.LoadKernelModule s1)
  | (28, _, s1, _) => some (.UnloadKernelModule s1)
  | (29, _, _, _) => some (.UpdateInitramfs)
  | (30, _, _, _) => some (.UpdateGrub)
  | (31, _, s1, s2) => some (.MountPartition s1 s2)
  | (32, _, s1, _) => some (.UnmountPartition s1)
  | (33, _, s1, s2) => some (.FormatPartition s1 s2)
  | (34, _, s1, s2) => some (.CreatePartition s1 s2)
  | (35, _, s1, _) => some (.SetHostname s1)
  | (36, _, s1, _) => some (.SetTimezone s1)
  | (37, _, s1, _) => some (.SetLocale s1)
  | (38, _, s1, s2) => some (.CreateUser s1 s2)
  | (39, _, s1, _) => some (.SetPassword s1)
  | (40, _, s1, _) => some (.EnableService s1)
  | (41, _, s1, _) => some (.DisableService s1)
  | (42, _, s1, _) => some (.StartService s1)
  | (43, _, s1, _) => some (.StopService s1)
  | (44, _, s1, _) => some (.InstallBootloader s1)
  | (45, _, _, _) => some (.GenerateFstab)
  | (46, _, s1, _) => some (.CheckIntegrity s1)
  | (47, _, s1, _) => some (.VerifySignature s1)
  | (48, _, s1, _) => some (.CompileKernel s1)
  | (49, _, s1, _) => some (.InstallPackages s1)
  | (50, _, _, _) => some (.UpdateSystem)
  | (51, _, _, _) => some (.SyncTime)
  | (52, _, s1, _) => some (.TestHardware s1)
  | (53, _, _, _) => some (.BenchmarkCpu)
  | (54, _, _, _) => some (.BenchmarkMemory)
  | (55, _, _, _) => some (.BenchmarkDisk)
  | (56, _, s1, s2) => some (.NetworkConfig s1 s2)
  | (57, _, s1, _) => some (.FirewallRule s1)
  | (58, _, _, _) => some (.ScanHardware)
  | (59, _, _, _) => some (.DetectDrivers)
  | (60, _, s1, _) => some (.InstallDriver s1)
  | _ => none

theorem cmdDec_enc (a : Command) : cmdDec (cmdEnc a) = some a := by
  cases a <;> rfl

theorem cmdEnc_inj {a b : Command} (h : cmdEnc a = cmdEnc b) : a = b := by
  have ha := cmdDec_enc a
  have hb := cmdDec_enc b
  rw [h] at ha
  exact Option.some.inj (ha.symm.trans hb)

instance : DecidableEq Command := fun a b =>
  match decEq (cmdEnc a) (cmdEnc b) with
  | isTrue h => isTrue (cmdEnc_inj h)
  | isFalse h => isFalse fun hc => h (congrArg cmdEnc hc)

/-- `Phase` from `src/main.rs`: a named ordered command list. -/
structure Phase where
  name : String
  commands : List Command
deriving DecidableEq

/-- `Package` from `src/main.rs` (the spec's Program).  The Rust struct also
carries `file_path : Option<PathBuf>`, used only by the `--show-deps`
pretty-printer and never by parsing, resolution or interpretation, so it is
not modelled. -/
structure Package where
  name : String
  version : String
  description : String
  author : String
  depends : List String
  phases : List Phase
deriving DecidableEq

/-- `InstnothParser::extract_quoted_value`: the substring strictly between the
first and the second double quote of the line, or the fatal error. -/
def extract_quoted_value (line : List Char) : Except String (List Char) :=
  match line.dropWhile (· ≠ '"') with
  | [] => .error ("Не удалось извлечь значение из: " ++ ofChars line)
  | _ :: rest =>
    if rest.contains '"' then .ok (rest.takeWhile (· ≠ '"'))
    else .error ("Не удалось извлечь значение из: " ++ ofChars line)

/-- `InstnothParser::extract_phase_name`: same scan, fixed error message. -/
def extract_phase_name (line : List Char) : Except String (List Char) :=
  match line.dropWhile (· ≠ '"') with
  | [] => .error "Не удалось извлечь имя фазы"
  | _ :: rest =>
    if rest.contains '"' then .ok (rest.takeWhile (· ≠ '"'))
    else .error "Не удалось извлечь имя фазы"

/-- Rust `str::find(&pattern)` followed by slicing off everything up to and
including the first occurrence of `pat`; `none` when `pat` does not occur. -/
def afterSub (pat : List Char) : List Char → Option (List Char)
  | [] => if pat.isPrefixOf ([] : List Char) then some [] else none
  | c :: rest =>
    if pat.isPrefixOf (c :: rest) then some ((c :: rest).drop pat.length)
    else afterSub pat rest

/-- Decimal value of a digit list (used only on all-digit lists). -/
def digitsToNat (l : List Char) : Nat := l.foldl (fun a c => a * 10 + (c.toNat - 48)) 0

/-- Rust `str::parse::<uN>()` on an already extracted token: an optional
leading `+`, then one or more ASCII digits whose value fits the type
(`maxVal` is the type's maximum); anything else is a parse failure. -/
def rustParseNat (maxVal : Nat) (l : List Char) : Option Nat :=
  let ds := match l with
    | '+' :: rest => rest
    | _ => l
  if ds.isEmpty then none
  else if ds.all Char.isDigit then
    if digitsToNat ds ≤ maxVal then some (digitsToNat ds) else none
  else none

/-- `InstnothParser::extract_param`: after the first `name=` in `args`, take
the maximal digit run and `u64`-parse it (empty run or overflow ⇒ `none`). -/
def extract_param (args name : List Char) : Option Nat :=
  match afterSub (name ++ ['=']) args with
  | none => none
  | some rest => rustParseNat (2 ^ 64 - 1) (rest.takeWhile Char.isDigit)

/-- `InstnothParser::extract_string_param`: after the first `name="` in
`args`, everything up to the next `"`. -/
def extract_string_param (args name : List Char) : Option (List Char) :=
  match afterSub (name ++ ['=', '"']) args with
  | none => none
  | some rest => if rest.contains '"' then some (rest.takeWhile (· ≠ '"')) else none

/-- One step of `InstnothParser::parse_depends`' character scan.  The state is
`(current, in_quotes, deps)` exactly as in the Rust loop. -/
def depStep (st : List Char × Bool × List String) (c : Char) :
    List Char × Bool × List String :=
  match st with
  | (current, in_quotes, deps) =>
    if c = '"' then
      if in_quotes then
        ([], false, if (trimL current).isEmpty then deps else deps ++ [ofChars (trimL current)])
      else (current, true, deps)
    else if c = ',' && !in_quotes then
      ([], in_quotes, if (trimL current).isEmpty then deps else deps ++ [ofChars (trimL current)])
    else if in_quotes then (current ++ [c], in_quotes, deps)
    else (current, in_quotes, deps)

/-- `InstnothParser::parse_depends`: scan the text after `depends:`, collecting
quoted tokens; a trailing unterminated token is flushed at the end. -/
def parse_depends (deps_str : List Char) : List String :=
  match deps_str.foldl depStep ([], false, []) with
  | (current, _, deps) =>
    if (trimL current).isEmpty then deps else deps ++ [ofChars (trimL current)]

/-- `InstnothParser::parse_command`.  `splitn(2, ' ')` makes the first
space-free token the vocabulary word and the rest of the line the argument
string; each arm mirrors the Rust match arm, including every default. -/
def parse_command (line : List Char) : Except String Command :=
  let cmd := line.takeWhile (· ≠ ' ')
  let args := (line.dropWhile (· ≠ ' ')).tail
  if cmd = "message".data then do
    return Command.Message (← extract_quoted_value line)
  else if cmd = "delay".data then
    return Command.Delay ((rustParseNat (2 ^ 64 - 1) (trimL args)).getD 100)
  else if cmd = "progress".data then
    return Command.Progress ((rustParseNat 255 (trimL args)).getD 0)
  else if cmd = "create_dir".data then do
    return Command.CreateDir (← extract_quoted_value line)
  else if cmd = "download".data then do
    return Command.Download (← extract_quoted_value line)
      ((extract_param args "size".data).getD 1024)
  else if cmd = "extract".data then do
    return Command.Extract (← extract_quoted_value line)
      ((extract_string_param args "to".data).getD [])
  else if cmd = "install_dep".data then do
    return Command.InstallDep (← extract_quoted_value line)
      ((extract_string_param args "version".data).getD "latest".data)
  else if cmd = "configure".data then
    return Command.Configure ((extract_string_param args "key".data).getD [])
      ((extract_string_param args "value".data).getD [])
  else if cmd = "cleanup".data then
    return Command.Cleanup
  else if cmd = "success".data then do
    return Command.Success (← extract_quoted_value line)
  else if cmd = "error".data then do
    return Command.Error (← extract_quoted_value line)
  else if cmd = "warning".data then do
    return Command.Warning (← extract_quoted_value line)
  else if cmd = "copy_file".data then do
    return Command.CopyFile (← extract_quoted_value line)
      ((extract_string_param args "to".data).getD [])
  else if cmd = "symlink".data then do
    return Command.Symlink (← extract_quoted_value line)
      ((extract_string_param args "to".data).getD [])
  else if cmd = "set_permission".data then do
    return Command.SetPermission (← extract_quoted_value line)
      ((extract_string_param args "mode".data).getD "755".data)
  else if cmd = "run_script".data then do
    return Command.RunScript (← extract_quoted_value line)
  else if cmd = "check_dep".data then do
    return Command.CheckDep (← extract_quoted_value line)
  else if cmd = "write_config".data then do
    return Command.WriteConfig (← extract_quoted_value line)
      ((extract_string_param args "content".data).getD [])
  else if cmd = "detect_cpu".data then
    return Command.DetectCpu
  else if cmd = "detect_memory".data then
    return Command.DetectMemory
  else if cmd = "detect_disk".data then
    return Command.DetectDisk
  else if cmd = "detect_gpu".data then
    return Command.DetectGpu
  else if cmd = "detect_network".data then
    return Command.DetectNetwork
  else if cmd = "detect_os".data then
    return Command.DetectOs
  else if cmd = "detect_kernel".data then
    return Command.DetectKernel
  else if cmd = "detect_bios".data then
    return Command.DetectBios
  else if cmd = "run_test".data then do
    return Command.RunTest (← extract_quoted_value line)
      ((extract_param args "duration".data).getD 1000)
  else if cmd = "load_module".data then do
    return Command.LoadKernelModule (← extract_quoted_value line)
  else if cmd = "unload_module".data then do
    return Command.UnloadKernelModule (← extract_quoted_value line)
  else if cmd = "update_initramfs".data then
    return Command.UpdateInitramfs
  else if cmd = "update_grub".data then
    return Command.UpdateGrub
  else if cmd = "mount".data then do
    return Command.MountPartition (← extract_quoted_value line)
      ((extract_string_param args "to".data).getD [])
  else if cmd = "unmount".data then do
    return Command.UnmountPartition (← extract_quoted_value line)
  else if cmd = "format".data then do
    return Command.FormatPartition (← extract_quoted_value line)
      ((extract_string_param args "fs".data).getD "ext4".data)
  else if cmd = "create_partition".data then do
    return Command.CreatePartition (← extract_quoted_value line)
      ((extract_string_param args "size".data).getD "100%".data)
  else if cmd = "set_hostname".data then do
    return Command.SetHostname (← extract_quoted_value line)
  else if cmd = "set_timezone".data then do
    return Command.SetTimezone (← extract_quoted_value line)
  else if cmd = "set_locale".data then do
    return Command.SetLocale (← extract_quoted_value line)
  else if cmd = "create_user".data then do
    return Command.CreateUser (← extract_quoted_value line)
      ((extract_string_param args "groups".data).getD "users".data)
  else if cmd = "set_password".data then do
    return Command.SetPassword (← extract_quoted_value line)
  else if cmd = "enable_service".data then do
    return Command.EnableService (← extract_quoted_value line)
  else if cmd = "disable_service".data then do
    return Command.DisableService (← extract_quoted_value line)
  else if cmd = "start_service".data then do
    return Command.StartService (← extract_quoted_value line)
  else if cmd = "stop_service".data then do
    return Command.StopService (← extract_quoted_value line)
  else if cmd = "install_bootloader".data then do
    return Command.InstallBootloader (← extract_quoted_value line)
  else if cmd = "generate_fstab".data then
    return Command.GenerateFstab
  else if cmd = "check_integrity".data then do
    return Command.CheckIntegrity (← extract_quoted_value line)
  else if cmd = "verify_signature".data then do
    return Command.VerifySignature (← extract_quoted_value line)
  else if cmd = "compile_kernel".data then do
    return Command.CompileKernel (← extract_quoted_value line)
  else if cmd = "install_packages".data then do
    return Command.InstallPackages (← extract_quoted_value line)
  else if cmd = "update_system".data then
    return Command.UpdateSystem
  else if cmd = "sync_time".data then
    return Command.SyncTime
  else if cmd = "test_hardware".data then do
    return Command.TestHardware (← extract_quoted_value line)
  else if cmd = "benchmark_cpu".data then
    return Command.BenchmarkCpu
  else if cmd = "benchmark_memory".data then
    return Command.BenchmarkMemory
  else if cmd = "benchmark_disk".data then
    return Command.BenchmarkDisk
  else if cmd = "network_config".data then do
    return Command.NetworkConfig (← extract_quoted_value line)
      ((extract_string_param args "config".data).getD "dhcp".data)
  else if cmd = "firewall_rule".data then do
    return Command.FirewallRule (← extract_quoted_value line)
  else if cmd = "scan_hardware".data then
    return Command.ScanHardware
  else if cmd = "detect_drivers".data then
    return Command.DetectDrivers
  else if cmd = "install_driver".data then do
    return Command.InstallDriver (← extract_quoted_value line)
  else .error ("Неизвестная команда: " ++ ofChars cmd)

/-- Control position of `InstnothParser::parse`'s line scan: at top level, in
the forward scan for a phase's opening `{`, or inside a phase body. -/
inductive PMode where
  | top
  | seekBrace (pname : String)
  | body (pname : String) (cmds : List Command)
deriving DecidableEq

/-- At end of input, a phase whose body (or opening brace) was still being
scanned is pushed exactly as the Rust loop pushes it after its inner loops
run off the end of `lines`. -/
def closePhase (pkg : Package) : PMode → Package
  | .top => pkg
  | .seekBrace pn => {pkg with phases := pkg.phases ++ [⟨pn, []⟩]}
  | .body pn cmds => {pkg with phases := pkg.phases ++ [⟨pn, cmds⟩]}

/-- The line scan of `InstnothParser::parse`.  The Rust function walks the
line array with a mutable index and two nested inner loops (brace scan, phase
body); since the index only ever moves forward one line at a time and no line
is examined twice, the scan is rendered as a single pass in which `PMode`
records which of the three loops the index currently sits in. -/
def parseLoop : List (List Char) → Package → PMode → Except String Package
  | [], pkg, mode =>
    let pkg' := closePhase pkg mode
    if pkg'.name = "" then .error "Не указано имя пакета" else .ok pkg'
  | l :: rest, pkg, .top =>
    let t := trimL l
    if t.isEmpty || t.head? == some '#' then parseLoop rest pkg .top
    else if ("package:".data).isPrefixOf t then
      match extract_quoted_value t with
      | .error e => .error e
      | .ok v => parseLoop rest {pkg with name := ofChars v} .top
    else if ("version:".data).isPrefixOf t then
      match extract_quoted_value t with
      | .error e => .error e
      | .ok v => parseLoop rest {pkg with version := ofChars v} .top
    else if ("description:".data).isPrefixOf t then
      match extract_quoted_value t with
      | .error e => .error e
      | .ok v => parseLoop rest {pkg with description := ofChars v} .top
    else if ("author:".data).isPrefixOf t then
      match extract_quoted_value t with
      | .error e => .error e
      | .ok v => parseLoop rest {pkg with author := ofChars v} .top
    else if ("depends:".data).isPrefixOf t then
      parseLoop rest {pkg with depends := parse_depends (t.drop 8)} .top
    else if ("phase".data).isPrefixOf t then
      match extract_phase_name t with
      | .error e => .error e
      | .ok pn =>
        if t.contains '{' then parseLoop rest pkg (.body (ofChars pn) [])
        else parseLoop rest pkg (.seekBrace (ofChars pn))
    else parseLoop rest pkg .top
  | l :: rest, pkg, .seekBrace pn =>
    if l.contains '{' then parseLoop rest pkg (.body pn [])
    else parseLoop rest pkg (.seekBrace pn)
  | l :: rest, pkg, .body pn cmds =>
    let t := trimL l
    if t.head? == some '}' then
      parseLoop rest {pkg with phases := pkg.phases ++ [⟨pn, cmds⟩]} .top
    else if t.isEmpty || t.head? == some '#' then parseLoop rest pkg (.body pn cmds)
    else
      match parse_command t with
      | .ok c => parseLoop rest pkg (.body pn (cmds ++ [c]))
      | .error _ => parseLoop rest pkg (.body pn cmds)

/-- One step of Rust `str::lines`: split at `'\n'`, stripping one `'\r'`
before each split point (`dropCR`), with no final empty line when the text
ends in a newline.  `acc` is the current line, reversed. -/
def dropCR (l : List Char) : List Char :=
  if l.getLast? = some '\r' then l.dropLast else l

def linesGo (acc : List Char) : List Char → List (List Char)
  | [] => if acc.isEmpty then [] else [acc.reverse]
  | c :: rest =>
    if c = '\n' then dropCR acc.reverse :: linesGo [] rest
    else linesGo (c :: acc) rest

/-- Rust `str::lines` over the script text. -/
def linesOf (s : String) : List (List Char) := linesGo [] s.data

/-- The empty `Package` that `InstnothParser::parse` starts from. -/
def emptyPackage : Package := ⟨"", "", "", "", [], []⟩

/-- `InstnothParser::parse`: text in, `Package` out (or a fatal error). -/
def parse (content : String) : Except String Package :=
  parseLoop (linesOf content) emptyPackage .top

/-- The file-loading collaborator: paths mapped to file contents (`none` on
lookup models `fs::read_to_string` failing). -/
abbrev FS := List (String × String)

/-- Unix `Path::is_absolute`. -/
def isAbsolutePath (p : String) : Bool := p.data.head? == some '/'

/-- `PathBuf::join` for the normalized paths the claims use (no trailing
separator on `base` other than a bare `/`, no `..` components). -/
def pathJoin (base rel : String) : String :=
  if base = "" then rel
  else if base.data.getLast? = some '/' then base ++ rel
  else base ++ "/" ++ rel

/-- `Path::parent` for normalized paths: the text before the last `/`
(`some ""` for a bare file name, `none` for `""` and `/`, `some "/"` for a
file directly under the root). -/
def pathParent (p : String) : Option String :=
  if p = "" then none
  else if p = "/" then none
  else if p.data.contains '/' then
    match (p.data.reverse.dropWhile (· ≠ '/')).tail.reverse with
    | [] => some "/"
    | pre => some (ofChars pre)
  else some ""

/-- `DependencyManager::resolve_path`: absolute references verbatim, relative
references joined to the run's single base directory. -/
def resolve_path (base dep_path : String) : String :=
  if isAbsolutePath dep_path then dep_path else pathJoin base dep_path

/-- `DependencyManager::load_package`: read the file, then parse it. -/
def load_package (fs : FS) (path : String) : Except String Package :=
  match fs.lookup path with
  | none => .error ("Не удалось прочитать файл " ++ path)
  | some content => parse content

/-- The mutable state of `DependencyManager::get_install_order`: the output
`order`, the fully-scheduled name set `visited` and the recursion-path name
set `in_stack` (Rust `HashSet`s, modelled as lists used as sets). -/
structure ResolveSt where
  order : List Package
  visited : List String
  in_stack : List String
deriving DecidableEq

/-- The cycle error raised by `DependencyManager::visit_package`. -/
def cycleMsg (name : String) : String :=
  "Обнаружена циклическая зависимость: " ++ name

/-- The dependency loop of `DependencyManager::visit_package`, parametrized by
the recursive visit so the whole recursion can be structural in the fuel:
each declared reference is resolved and loaded; a load or parse failure skips
that edge (warning only), a loaded package is visited, and a visit error
aborts everything (`?` in Rust). -/
def visitDepsWith (fs : FS) (base : String)
    (visit : Package → ResolveSt → Option (Except String ResolveSt)) :
    List String → ResolveSt → Option (Except String ResolveSt)
  | [], σ => some (.ok σ)
  | d :: rest, σ =>
    match load_package fs (resolve_path base d) with
    | .error _ => visitDepsWith fs base visit rest σ
    | .ok dp =>
      match visit dp σ with
      | none => none
      | some (.error e) => some (.error e)
      | some (.ok σ') => visitDepsWith fs base visit rest σ'

/-- `DependencyManager::visit_package`.  The Rust recursion has no explicit
bound; it terminates because each level pushes a fresh name onto `in_stack`
and the loadable files are finite.  The embedding makes that explicit with a
fuel parameter — `none` means the fuel ran out, which no theorem ever treats
as a result of the Rust code. -/
def visit_package (fs : FS) (base : String) :
    Nat → Package → ResolveSt → Option (Except String ResolveSt)
  | 0 => fun _ _ => none
  | fuel + 1 => fun pkg σ =>
    if pkg.name ∈ σ.in_stack then some (.error (cycleMsg pkg.name))
    else if pkg.name ∈ σ.visited then some (.ok σ)
    else
      match visitDepsWith fs base (visit_package fs base fuel) pkg.depends
          {σ with in_stack := pkg.name :: σ.in_stack} with
      | none => none
      | some (.error e) => some (.error e)
      | some (.ok σ₂) =>
        some (.ok ⟨σ₂.order ++ [pkg], pkg.name :: σ₂.visited, σ₂.in_stack.erase pkg.name⟩)

/-- The root loop of `DependencyManager::get_install_order`. -/
def visitRoots (fs : FS) (base : String) (fuel : Nat) :
    List Package → ResolveSt → Option (Except String ResolveSt)
  | [], σ => some (.ok σ)
  | p :: rest, σ =>
    match visit_package fs base fuel p σ with
    | none => none
    | some (.error e) => some (.error e)
    | some (.ok σ') => visitRoots fs base fuel rest σ'

/-- `DependencyManager::get_install_order` over the given root `Package`s. -/
def get_install_order (fs : FS) (base : String) (fuel : Nat) (roots : List Package) :
    Option (Except String (List Package)) :=
  match visitRoots fs base fuel roots ⟨[], [], []⟩ with
  | none => none
  | some (.error e) => some (.error e)
  | some (.ok σ) => some (.ok σ.order)

/-- The declared names of an order, in order. -/
def pkgNames (order : List Package) : List String := order.map Package.name

/-- Position of the (first) package with declared name `n` in an order. -/
def idxOfName (order : List Package) (n : String) : Nat :=
  order.findIdx (fun p => p.name == n)

/-- The root-file loading loop of `main`: each listed file is read (a failure
is fatal), the base path is re-assigned to the file's parent directory
whenever it has one, and the file is parsed (a failure is fatal). -/
def mainLoadLoop (fs : FS) : List String → String → List Package →
    Except String (String × List Package)
  | [], base, pkgs => .ok (base, pkgs)
  | f :: rest, base, pkgs =>
    match fs.lookup f with
    | none => .error ("Не удалось прочитать файл " ++ f)
    | some content =>
      match parse content with
      | .error e => .error e
      | .ok pkg => mainLoadLoop fs rest ((pathParent f).getD base) (pkgs ++ [pkg])

/-- `main`'s loading phase: base path starts at `"."`, packages accumulate in
command-line order. -/
def mainLoad (fs : FS) (files : List String) : Except String (String × List Package) :=
  mainLoadLoop fs files "." []

/-- `Simulator`'s mutable state: the two mode flags and the last-seen
progress value. -/
structure Simulator where
  quick_mode : Bool
  verbose : Bool
  progress : Nat
deriving DecidableEq

/-- A stream of ambient random draws (`rand::thread_rng`). -/
def Rng : Type := Nat → Nat

/-- Next draw of the stream. -/
def rHead (r : Rng) : Nat := r 0

/-- The stream after one draw. -/
def rTail (r : Rng) : Rng := fun n => r (n + 1)

/-- The all-zero stream, used for concrete runs. -/
def rZero : Rng := fun _ => 0

/-- One `rng.gen_range(lo..hi)` draw: some value in `lo..hi`. -/
def genRange (lo hi : Nat) (r : Rng) : Nat := lo + rHead r % (hi - lo)

/-- Rust `usize` subtraction: `none` models the debug-build underflow panic
(in release builds the wrapped value immediately feeds `"░".repeat`, whose
capacity computation overflows and panics as well). -/
def checkSub (a b : Nat) : Option Nat := if b ≤ a then some (a - b) else none

/-- `Simulator::show_progress_bar`: `width = 30`, `filled = width*pct/100`,
`empty = width - filled`; the subtraction underflows for `pct ≥ 104`. -/
def show_progress_bar (pct : Nat) : Option Unit :=
  match checkSub 30 (30 * pct / 100) with
  | none => none
  | some _ => some ()

/-- Milliseconds slept by `Simulator::simulate_operation`: `delay_ms / 80`
spinner iterations of 80 ms each, skipped entirely in quick mode. -/
def simOpMs (quick : Bool) (delay_ms : Nat) : Nat :=
  if quick then 0 else delay_ms / 80 * 80

/-- Milliseconds slept by `Simulator::run_test`: 21 progress-bar steps of
`duration / 20` ms each, skipped in quick mode. -/
def runTestMs (quick : Bool) (duration : Nat) : Nat :=
  if quick then 0 else 21 * (duration / 20)

/-- The per-component test lists of `Simulator::test_hardware` (each entry is
run through `run_test(_, 500)`). -/
def testsFor (component : List Char) : List String :=
  if component = "memory".data ∨ component = "ram".data then
    ["Проверка ячеек памяти", "Тест чтения/записи", "Стресс-тест"]
  else if component = "cpu".data then
    ["Арифметические операции", "SIMD инструкции", "Температурный мониторинг"]
  else if component = "disk".data ∨ component = "storage".data then
    ["Проверка секторов", "Тест SMART", "Скорость чтения/записи"]
  else if component = "gpu".data then
    ["Рендеринг", "Вычисления CUDA/OpenCL", "Температура"]
  else ["Базовый тест", "Функциональный тест"]

/-- Word counter for Rust `str::split_whitespace` (counts maximal runs of
non-whitespace characters); `prevWs` says whether the previous character was
whitespace. -/
def wordCountGo : Bool → List Char → Nat
  | _, [] => 0
  | prevWs, c :: rest =>
    if isWSChar c then wordCountGo true rest
    else (if prevWs then 1 else 0) + wordCountGo false rest

/-- Number of packages named on an `install_packages` line. -/
def splitWsCount (l : List Char) : Nat := wordCountGo true l

/-- The non-quick loop of `Simulator::simulate_download`: while the downloaded
total is below `size`, draw a chunk in `10..50` (capped at the remainder) and
sleep a drawn `20..60` ms.  Returns total milliseconds slept and the stream
after the draws. -/
def downloadLoop (size : Nat) (downloaded : Nat) (r : Rng) : Nat × Rng :=
  if h : downloaded < size then
    have hc : 1 ≤ min (genRange 10 50 r) (size - downloaded) :=
      le_min (by simp [genRange]; omega) (by omega)
    match downloadLoop size (downloaded + min (genRange 10 50 r) (size - downloaded))
        (rTail (rTail r)) with
    | (rest, r') => (genRange 20 60 (rTail r) + rest, r')
  else (0, r)
termination_by size - downloaded
decreasing_by simp_wf; omega

/-- `Simulator::execute_command`.  Result: `none` for a panic, otherwise the
updated state, the total milliseconds slept, and the random stream after any
observable draws.  Every Rust arm ends in `Ok(())`, so the `Result` error
channel is statically dead and is not modelled.  The per-arm sleep totals are
read off the corresponding `Simulator` method (counting every
`thread::sleep`, all of which sit behind `if !self.quick_mode`). -/
def execCommand (s : Simulator) (r : Rng) (c : Command) :
    Option (Simulator × Nat × Rng) :=
  match c with
  | .Message _ => some (s, 0, r)
  | .Delay ms => some (s, if s.quick_mode then 0 else ms, r)
  | .Progress pct =>
    -- `self.progress = pct` then `show_progress_bar(pct)`, which panics
    -- (underflow / capacity overflow) when `30 * pct / 100 > 30`.
    match show_progress_bar pct with
    | none => none
    | some _ => some ({s with progress := pct}, 0, r)
  | .CreateDir _ => some (s, simOpMs s.quick_mode 200, r)
  | .Download _ size =>
    if s.quick_mode then some (s, 0, r)
    else
      match downloadLoop size 0 r with
      | (ms, r') => some (s, ms, r')
  | .Extract _ _ => some (s, if s.quick_mode then 0 else 5 * 100, r)
  | .InstallDep _ _ => some (s, if s.quick_mode then 0 else 15 * 100, r)
  | .Configure _ _ => some (s, if s.quick_mode then 0 else 100, r)
  | .Cleanup => some (s, simOpMs s.quick_mode 300, r)
  | .Success _ => some (s, 0, r)
  | .Error _ => some (s, 0, r)
  | .Warning _ => some (s, 0, r)
  | .CopyFile _ _ => some (s, if s.quick_mode then 0 else 150, r)
  | .Symlink _ _ => some (s, if s.quick_mode then 0 else 100, r)
  | .SetPermission _ _ => some (s, if s.quick_mode then 0 else 50, r)
  | .RunScript _ => some (s, if s.quick_mode then 0 else 4 * 150, r)
  | .CheckDep _ => some (s, if s.quick_mode then 0 else 200, r)
  | .WriteConfig _ _ => some (s, if s.quick_mode then 0 else 100, r)
  | .DetectCpu => some (s, if s.quick_mode then 0 else 500, r)
  | .DetectMemory => some (s, if s.quick_mode then 0 else 400, r)
  | .DetectDisk => some (s, if s.quick_mode then 0 else 600, r)
  | .DetectGpu => some (s, if s.quick_mode then 0 else 500, r)
  | .DetectNetwork => some (s, if s.quick_mode then 0 else 500, r)
  | .DetectOs => some (s, if s.quick_mode then 0 else 300, r)
  | .DetectKernel => some (s, if s.quick_mode then 0 else 200, r)
  | .DetectBios => some (s, if s.quick_mode then 0 else 400, r)
  | .RunTest _ duration => some (s, runTestMs s.quick_mode duration, r)
  | .LoadKernelModule _ => some (s, if s.quick_mode then 0 else 300, r)
  | .UnloadKernelModule _ => some (s, if s.quick_mode then 0 else 200, r)
  | .UpdateInitramfs => some (s, if s.quick_mode then 0 else 4 * 400, r)
  | .UpdateGrub => some (s, if s.quick_mode then 0 else 300 + 4 * 150, r)
  | .MountPartition _ _ => some (s, if s.quick_mode then 0 else 300, r)
  | .UnmountPartition _ => some (s, if s.quick_mode then 0 else 200, r)
  | .FormatPartition _ _ => some (s, if s.quick_mode then 0 else 101 * 20, r)
  | .CreatePartition _ _ => some (s, if s.quick_mode then 0 else 500, r)
  | .SetHostname _ => some (s, if s.quick_mode then 0 else 100, r)
  | .SetTimezone _ => some (s, if s.quick_mode then 0 else 100, r)
  | .SetLocale _ => some (s, if s.quick_mode then 0 else 100, r)
  | .CreateUser _ _ => some (s, if s.quick_mode then 0 else 300, r)
  | .SetPassword _ => some (s, if s.quick_mode then 0 else 300, r)
  | .EnableService _ => some (s, if s.quick_mode then 0 else 200, r)
  | .DisableService _ => some (s, if s.quick_mode then 0 else 200, r)
  | .StartService _ => some (s, if s.quick_mode then 0 else 200, r)
  | .StopService _ => some (s, if s.quick_mode then 0 else 200, r)
  | .InstallBootloader _ => some (s, if s.quick_mode then 0 else 4 * 400, r)
  | .GenerateFstab => some (s, if s.quick_mode then 0 else 4 * 150, r)
  | .CheckIntegrity _ => some (s, if s.quick_mode then 0 else 101 * 15, r)
  | .VerifySignature _ => some (s, if s.quick_mode then 0 else 400, r)
  | .CompileKernel _ =>
    some (s, if s.quick_mode then 0
      else [500, 2000, 1500, 800, 400].foldl (fun a d => a + 21 * (d / 20)) 0, r)
  | .InstallPackages pkgs =>
    some (s, if s.quick_mode then 0 else splitWsCount pkgs * (10 * 80), r)
  | .UpdateSystem => some (s, if s.quick_mode then 0 else 5 * 500, r)
  | .SyncTime => some (s, if s.quick_mode then 0 else 500, r)
  | .TestHardware component =>
    some (s, (testsFor component).length * runTestMs s.quick_mode 500, r)
  | .BenchmarkCpu => some (s, if s.quick_mode then 0 else 4 * 400, r)
  | .BenchmarkMemory => some (s, if s.quick_mode then 0 else 4 * 300, r)
  | .BenchmarkDisk => some (s, if s.quick_mode then 0 else 4 * 400, r)
  | .NetworkConfig _ config =>
    some (s, if s.quick_mode then 0
      else (if config = "dhcp".data then 800 else 300) + 400, r)
  | .FirewallRule _ => some (s, if s.quick_mode then 0 else 100, r)
  | .ScanHardware => some (s, if s.quick_mode then 0 else 5 * 300, r)
  | .DetectDrivers => some (s, if s.quick_mode then 0 else 6 * 150, r)
  | .InstallDriver _ => some (s, if s.quick_mode then 0 else 15 * 100, r)

/-- The command loop of `Simulator::run_phase`. -/
def runCommands (s : Simulator) (r : Rng) : List Command → Option (Simulator × Nat × Rng)
  | [] => some (s, 0, r)
  | c :: cs =>
    match execCommand s r c with
    | none => none
    | some (s₁, ms₁, r₁) =>
      match runCommands s₁ r₁ cs with
      | none => none
      | some (s₂, ms₂, r₂) => some (s₂, ms₁ + ms₂, r₂)

/-- The phase loop of `Simulator::run` (`print_header`/`print_footer` and the
phase banners are narration only). -/
def runPhases (s : Simulator) (r : Rng) : List Phase → Option (Simulator × Nat × Rng)
  | [] => some (s, 0, r)
  | ph :: rest =>
    match runCommands s r ph.commands with
    | none => none
    | some (s₁, ms₁, r₁) =>
      match runPhases s₁ r₁ rest with
      | none => none
      | some (s₂, ms₂, r₂) => some (s₂, ms₁ + ms₂, r₂)

/-- `Simulator::run` on one package. -/
def runPackage (s : Simulator) (r : Rng) (pkg : Package) :
    Option (Simulator × Nat × Rng) :=
  runPhases s r pkg.phases

/-- Whether an `Except` result is the error case. -/
def isErr {ε α : Type} : Except ε α → Bool
  | .error _ => true
  | .ok _ => false

/-- Scan position for the failure characterization, forgetting the collected
data: top level, brace scan, or phase body. -/
inductive FMode where
  | top
  | seek
  | body
deriving DecidableEq

/-- Forget a `PMode`'s collected data. -/
def fmodeOf : PMode → FMode
  | .top => .top
  | .seekBrace _ => .seek
  | .body _ _ => .body

/-- Written from the amended claim C4: `parse` fails exactly when the package
name ends up missing/empty, a top-level key line has no extractable
double-quoted value, or a top-level `phase` line has no extractable quoted
name.  `nameEmpty` tracks only whether the package name is currently empty;
phase bodies and brace scans are skipped because no line inside them can
fail. -/
def specHardFail : List (List Char) → Bool → FMode → Bool
  | [], nameEmpty, _ => nameEmpty
  | l :: rest, nameEmpty, .top =>
    let t := trimL l
    if t.isEmpty || t.head? == some '#' then specHardFail rest nameEmpty .top
    else if ("package:".data).isPrefixOf t then
      match extract_quoted_value t with
      | .error _ => true
      | .ok v => specHardFail rest v.isEmpty .top
    else if ("version:".data).isPrefixOf t then
      match extract_quoted_value t with
      | .error _ => true
      | .ok _ => specHardFail rest nameEmpty .top
    else if ("description:".data).isPrefixOf t then
      match extract_quoted_value t with
      | .error _ => true
      | .ok _ => specHardFail rest nameEmpty .top
    else if ("author:".data).isPrefixOf t then
      match extract_quoted_value t with
      | .error _ => true
      | .ok _ => specHardFail rest nameEmpty .top
    else if ("depends:".data).isPrefixOf t then specHardFail rest nameEmpty .top
    else if ("phase".data).isPrefixOf t then
      match extract_phase_name t with
      | .error _ => true
      | .ok _ =>
        if t.contains '{' then specHardFail rest nameEmpty .body
        else specHardFail rest nameEmpty .seek
    else specHardFail rest nameEmpty .top
  | l :: rest, nameEmpty, .seek =>
    if l.contains '{' then specHardFail rest nameEmpty .body
    else specHardFail rest nameEmpty .seek
  | l :: rest, nameEmpty, .body =>
    if (trimL l).head? == some '}' then specHardFail rest nameEmpty .top
    else specHardFail rest nameEmpty .body

/-- The command a phase-body line contributes: nothing for blank/comment
lines and for lines `parse_command` rejects, the parsed command otherwise. -/
def lineCmd? (t : List Char) : Option Command :=
  if t.isEmpty || t.head? == some '#' then none
  else
    match parse_command t with
    | .ok c => some c
    | .error _ => none

/-- The well-formed commands of a phase body, in order. -/
def bodyCmds (body : List (List Char)) : List Command :=
  body.filterMap (fun l => lineCmd? (trimL l))

/-- Claim C1's ordering property of an order: every successfully loadable
dependency reference of a member points at a name placed strictly earlier. -/
def GoodOrder (fs : FS) (base : String) (order : List Package) : Prop :=
  ∀ P ∈ order, ∀ ref ∈ P.depends, ∀ D,
    load_package fs (resolve_path base ref) = .ok D →
      D.name ∈ pkgNames order ∧ idxOfName order D.name < idxOfName order P.name

/-- Invariant of the resolver state: `visited` is exactly the set of names
already placed in `order`, placed names are distinct, the recursion path is
disjoint from the placed names, and the placed prefix already satisfies the
ordering property. -/
structure ResolveInv (fs : FS) (base : String) (σ : ResolveSt) : Prop where
  vis_names : ∀ n : String, n ∈ σ.visited ↔ n ∈ pkgNames σ.order
  names_nodup : (pkgNames σ.order).Nodup
  stack_disj : ∀ n ∈ σ.in_stack, n ∉ σ.visited
  good : GoodOrder fs base σ.order

/-- What one successful visit guarantees: the recursion path is restored, the
order only grows at the end, scheduled names persist, the visited package's
name is scheduled, and the invariant is maintained. -/
def VisitSpec (fs : FS) (base : String)
    (visit : Package → ResolveSt → Option (Except String ResolveSt)) : Prop :=
  ∀ pkg σ σ', ResolveInv fs base σ → visit pkg σ = some (.ok σ') →
    σ'.in_stack = σ.in_stack ∧ (∃ ext, σ'.order = σ.order ++ ext) ∧
    (∀ n ∈ σ.visited, n ∈ σ'.visited) ∧ pkg.name ∈ σ'.visited ∧
    ResolveInv fs base σ'

/-- One-file filesystem for the C1 witness: `a` depends on the file of `b`. -/
def fsC1 : FS := [("/b.inst", "package: \"b\"")]

def pkgA1 : Package := ⟨"a", "", "", "", ["/b.inst"], []⟩

def pkgB1 : Package := ⟨"b", "", "", "", [], []⟩

/-- Two mutually referring files for claim C5. -/
def fsC5 : FS :=
  [("/a.inst", "package: \"a\"\ndepends: \"/b.inst\""),
   ("/b.inst", "package: \"b\"\ndepends: \"/a.inst\"")]

def pkgA5 : Package := ⟨"a", "", "", "", ["/b.inst"], []⟩

def pkgB5 : Package := ⟨"b", "", "", "", ["/a.inst"], []⟩

/-- A dependency-free package that shares `pkgA5`'s name. -/
def pkgA5dup : Package := ⟨"a", "", "", "", [], []⟩

/-- Two files declaring the same name for claim C7. -/
def fsC7 : FS :=
  [("/x1.inst", "package: \"x\"\nversion: \"1\""),
   ("/x2.inst", "package: \"x\"\nversion: \"2\"")]

def pkgR7 : Package := ⟨"r", "", "", "", ["/x1.inst", "/x2.inst"], []⟩

def pkgX71 : Package := ⟨"x", "1", "", "", [], []⟩

/-- Two root files in different directories for claim C3. -/
def fsC3 : FS := [("d1/a.inst", "package: \"a\""), ("d2/b.inst", "package: \"b\"")]

def pkgA3 : Package := ⟨"a", "", "", "", [], []⟩

def pkgB3 : Package := ⟨"b", "", "", "", [], []⟩

/-- Small program for the C8 witness. -/
def demoC8 : Package :=
  ⟨"demo", "", "", "", [],
    [⟨"install", [.Message "hi".data, .Progress 50, .Delay 500]⟩]⟩

theorem ofChars_ne_empty {l : List Char} (h : l ≠ []) : ofChars l ≠ "" := by
  intro hc
  exact h (congrArg String.data hc)

theorem ofChars_beq_empty (v : List Char) : (ofChars v == "") = v.isEmpty := by
  cases v with
  | nil => decide
  | cons c cs =>
    simp only [List.isEmpty_cons]
    exact beq_eq_false_iff_ne.mpr (ofChars_ne_empty (by simp))

theorem closePhase_name (pkg : Package) (mode : PMode) :
    (closePhase pkg mode).name = pkg.name := by
  cases mode <;> rfl

theorem depStep_skip (st : List Char × Bool × List String) (c : Char)
    (hq : c ≠ '"') (hc : c ≠ ',') (hin : st.2.1 = false) : depStep st c = st := by
  obtain ⟨cur, inq, deps⟩ := st
  simp only at hin
  subst hin
  simp [depStep, hq, hc]

theorem foldl_depStep_junk (junk : List Char)
    (h : ∀ c ∈ junk, c ≠ '"' ∧ c ≠ ',') :
    junk.foldl depStep ([], false, []) = ([], false, []) := by
  induction junk with
  | nil => rfl
  | cons c rest ih =>
    rw [List.foldl_cons,
      depStep_skip _ _ (h c (by simp)).1 (h c (by simp)).2 rfl]
    exact ih fun x hx => h x (by simp [hx])

theorem depStep_no_empty (st : List Char × Bool × List String) (c : Char)
    (h : "" ∉ st.2.2) : "" ∉ (depStep st c).2.2 := by
  obtain ⟨cur, inq, deps⟩ := st
  simp only at h
  simp only [depStep]
  split
  · split
    · split
      · simpa using h
      · simp only []
        intro hmem
        rcases List.mem_append.mp hmem with h1 | h1
        · exact h h1
        · rcases List.mem_singleton.mp h1 with h2
          exact ofChars_ne_empty (by simpa [List.isEmpty_iff] using ‹¬((trimL cur).isEmpty = true)›) h2.symm
    · simpa using h
  · split
    · split
      · simpa using h
      · intro hmem
        rcases List.mem_append.mp hmem with h1 | h1
        · exact h h1
        · rcases List.mem_singleton.mp h1 with h2
          exact ofChars_ne_empty (by simpa [List.isEmpty_iff] using ‹¬((trimL cur).isEmpty = true)›) h2.symm
    · split <;> simpa using h

theorem foldl_depStep_no_empty (s : List Char) :
    ∀ st : List Char × Bool × List String, "" ∉ st.2.2 →
      "" ∉ (s.foldl depStep st).2.2 := by
  induction s with
  | nil => exact fun st h => h
  | cons c rest ih =>
    intro st h
    rw [List.foldl_cons]
    exact ih _ (depStep_no_empty st c h)

/-- C9: `depends:` tokens separated by whitespace and by commas parse to the
identical ordered list — on the claim's two inputs both give
`["x.ext", "y.ext"]` — while characters outside quotes other than `"` and `,`
never change the scan, and the empty token never appears in the result. -/
theorem C9_depends_separator_forms :
    parse_depends (" \"x.ext\" \"y.ext\"").data = ["x.ext", "y.ext"] ∧
    parse_depends (" \"x.ext\", \"y.ext\"").data = ["x.ext", "y.ext"] ∧
    parse_depends (" \"x.ext\" \"y.ext\"").data = parse_depends (" \"x.ext\", \"y.ext\"").data ∧
    (∀ junk s : List Char, (∀ c ∈ junk, c ≠ '"' ∧ c ≠ ',') →
      parse_depends (junk ++ s) = parse_depends s) ∧
    (∀ s : List Char, "" ∉ parse_depends s) := by
  refine ⟨by decide, by decide, by decide, ?_, ?_⟩
  · intro junk s h
    unfold parse_depends
    rw [List.foldl_append, foldl_depStep_junk junk h]
  · intro s
    have hin : ("" : String) ∉ (s.foldl depStep ([], false, [])).2.2 :=
      foldl_depStep_no_empty s _ (by simp)
    unfold parse_depends
    rcases hfold : s.foldl depStep ([], false, []) with ⟨cur, inq, deps⟩
    rw [hfold] at hin
    simp only at hin
    show ("" : String) ∉
      (if (trimL cur).isEmpty then deps else deps ++ [ofChars (trimL cur)])
    by_cases hemp : (trimL cur).isEmpty = true
    · simpa [hemp] using hin
    · simp only [hemp, if_false]
      intro hmem
      rcases List.mem_append.mp hmem with h1 | h1
      · exact hin h1
      · exact ofChars_ne_empty (by simpa [List.isEmpty_iff] using hemp)
          (List.mem_singleton.mp h1).symm

/-- C9 witness: the universally quantified parts applied at a concrete
input. -/
theorem C9_witness :
    parse_depends ("junk ".data ++ "\"x.ext\"".data) = parse_depends "\"x.ext\"".data ∧
    ("" : String) ∉ parse_depends "\"x\" \"\"".data :=
  ⟨C9_depends_separator_forms.2.2.2.1 "junk ".data "\"x.ext\"".data (by decide),
   C9_depends_separator_forms.2.2.2.2 "\"x\" \"\"".data⟩

theorem bodyCmds_cons (l : List Char) (body : List (List Char)) :
    bodyCmds (l :: body) = (lineCmd? (trimL l)).toList ++ bodyCmds body := by
  unfold bodyCmds
  rw [List.filterMap_cons]
  cases lineCmd? (trimL l) <;> simp

theorem parseLoop_body_cons (l : List Char) (rest : List (List Char))
    (pkg : Package) (pn : String) (cmds : List Command)
    (h : ¬((trimL l).head? = some '}')) :
    parseLoop (l :: rest) pkg (.body pn cmds) =
      parseLoop rest pkg (.body pn (cmds ++ (lineCmd? (trimL l)).toList)) := by
  have hb : ((trimL l).head? == some '}') = false := beq_eq_false_iff_ne.mpr h
  simp only [parseLoop, hb, Bool.false_eq_true, if_false]
  by_cases hblank : ((trimL l).isEmpty || (trimL l).head? == some '#') = true
  · simp [hblank, lineCmd?]
  · simp only [hblank, Bool.false_eq_true, if_false]
    cases hpc : parse_command (trimL l) with
    | ok c => simp [lineCmd?, hblank, hpc]
    | error e => simp [lineCmd?, hblank, hpc]

/-- C6: inside a phase body, a line whose leading word is unknown or whose
required quoted value is unextractable is dropped without aborting the phase
or the file: running the body scan over any body equal to well-formed and
malformed lines followed by the closing brace collects exactly the in-order
well-formed commands (`bodyCmds`), and on the claim's concrete example the
phase parses to exactly `Message "a"`, `Message "b"`. -/
theorem C6_unknown_commands_dropped :
    (∀ (pn : String) (cmds : List Command) (body : List (List Char))
        (braceL : List Char) (rest : List (List Char)) (pkg : Package),
      (∀ l ∈ body, ¬((trimL l).head? = some '}')) →
      (trimL braceL).head? = some '}' →
      parseLoop (body ++ braceL :: rest) pkg (.body pn cmds) =
        parseLoop rest {pkg with phases := pkg.phases ++ [⟨pn, cmds ++ bodyCmds body⟩]}
          .top) ∧
    parse "package: \"p\"\nphase \"t\" \x7b\nmessage \"a\"\nbogus_cmd foo\nmessage \"b\"\n\x7d" =
      .ok ⟨"p", "", "", "", [], [⟨"t", [.Message "a".data, .Message "b".data]⟩]⟩ := by
  constructor
  · intro pn cmds body braceL rest pkg hbody hbrace
    induction body generalizing cmds with
    | nil =>
      have hb : ((trimL braceL).head? == some '}') = true := beq_iff_eq.mpr hbrace
      simp [parseLoop, hb, bodyCmds]
    | cons l body' ih =>
      rw [List.cons_append,
        parseLoop_body_cons l _ pkg pn cmds (hbody l (by simp)),
        ih _ (fun x hx => hbody x (by simp [hx])), bodyCmds_cons, List.append_assoc]
  · decide

/-- C6 witness: the general body lemma applied at a concrete phase body. -/
theorem C6_witness :
    parseLoop ["message \"a\"".data, "bogus_cmd foo".data, "\x7d".data]
        ⟨"p", "", "", "", [], []⟩ (.body "t" []) =
      parseLoop [] ⟨"p", "", "", "", [],
        [⟨"t", [Command.Message "a".data]⟩]⟩ .top := by
  have h := C6_unknown_commands_dropped.1 "t" []
    ["message \"a\"".data, "bogus_cmd foo".data] "\x7d".data []
    ⟨"p", "", "", "", [], []⟩ (by decide) (by decide)
  simpa using h.trans (by decide)

/-- C10: when a phase's closing `}` never appears, the body scan runs to end
of input treating every remaining line as a candidate command line, the phase
is still appended with the commands so collected, and the parse succeeds
exactly when a package name was set. -/
theorem C10_unclosed_phase (body : List (List Char)) (pkg : Package)
    (pn : String) (cmds : List Command)
    (h : ∀ l ∈ body, ¬((trimL l).head? = some '}')) :
    parseLoop body pkg (.body pn cmds) =
      if pkg.name = "" then .error "Не указано имя пакета"
      else .ok {pkg with phases := pkg.phases ++ [⟨pn, cmds ++ bodyCmds body⟩]} := by
  induction body generalizing cmds with
  | nil => simp [parseLoop, closePhase, bodyCmds]
  | cons l body' ih =>
    rw [parseLoop_body_cons l _ pkg pn cmds (h l (by simp)),
      ih _ (fun x hx => h x (by simp [hx])), bodyCmds_cons, List.append_assoc]

/-- C10 witness: an unterminated phase body whose lines include a would-be
top-level key line, still consumed as a (dropped) candidate command. -/
theorem C10_witness :
    parseLoop ["message \"ok\"".data, "version: \"9\"".data]
        ⟨"p", "", "", "", [], []⟩ (.body "t" []) =
      .ok ⟨"p", "", "", "", [], [⟨"t", [Command.Message "ok".data]⟩]⟩ := by
  have h := C10_unclosed_phase ["message \"ok\"".data, "version: \"9\"".data]
    ⟨"p", "", "", "", [], []⟩ "t" [] (by decide)
  simpa using h.trans (by decide)

/-- C2 (code bug): the parseable command `progress 104` panics the
interpreter.  `Simulator::show_progress_bar` computes
`empty = 30 - 30 * 104 / 100 = 30 - 31`, an underflowing `usize` subtraction
(panic in debug builds; in release builds the wrapped value reaches
`"░".repeat`, whose capacity computation overflows and panics), so
`Command::Progress(104)` has no defined effect in either mode, contradicting
the never-aborts contract. -/
theorem C2_progress_panics :
    parse_command "progress 104".data = .ok (Command.Progress 104) ∧
    execCommand ⟨true, false, 0⟩ rZero (Command.Progress 104) = none ∧
    execCommand ⟨false, false, 0⟩ rZero (Command.Progress 104) = none :=
  ⟨by decide, rfl, rfl⟩

theorem parseLoop_isErr (lines : List (List Char)) :
    ∀ (pkg : Package) (mode : PMode),
      isErr (parseLoop lines pkg mode) =
        specHardFail lines (pkg.name == "") (fmodeOf mode) := by
  induction lines with
  | nil =>
    intro pkg mode
    simp only [parseLoop, specHardFail]
    by_cases h : (closePhase pkg mode).name = ""
    · rw [if_pos h, closePhase_name] at *
      simp [isErr, beq_iff_eq.mpr h]
    · rw [if_neg h, closePhase_name] at *
      simp [isErr, beq_eq_false_iff_ne.mpr h]
  | cons l rest ih =>
    intro pkg mode
    cases mode with
    | top =>
      simp only [parseLoop, specHardFail, fmodeOf]
      by_cases h1 : ((trimL l).isEmpty || (trimL l).head? == some '#') = true
      · simp only [h1, if_true]
        exact ih pkg .top
      · simp only [h1, Bool.false_eq_true, if_false]
        by_cases h2 : (("package:".data).isPrefixOf (trimL l)) = true
        · simp only [h2, if_true]
          cases hx : extract_quoted_value (trimL l) with
          | error e => rfl
          | ok v =>
            have := ih {pkg with name := ofChars v} .top
            simpa [ofChars_beq_empty] using this
        · simp only [h2, Bool.false_eq_true, if_false]
          by_cases h3 : (("version:".data).isPrefixOf (trimL l)) = true
          · simp only [h3, if_true]
            cases hx : extract_quoted_value (trimL l) with
            | error e => rfl
            | ok v => exact ih {pkg with version := ofChars v} .top
          · simp only [h3, Bool.false_eq_true, if_false]
            by_cases h4 : (("description:".data).isPrefixOf (trimL l)) = true
            · simp only [h4, if_true]
              cases hx : extract_quoted_value (trimL l) with
              | error e => rfl
              | ok v => exact ih {pkg with description := ofChars v} .top
            · simp only [h4, Bool.false_eq_true, if_false]
              by_cases h5 : (("author:".data).isPrefixOf (trimL l)) = true
              · simp only [h5, if_true]
                cases hx : extract_quoted_value (trimL l) with
                | error e => rfl
                | ok v => exact ih {pkg with author := ofChars v} .top
              · simp only [h5, Bool.false_eq_true, if_false]
                by_cases h6 : (("depends:".data).isPrefixOf (trimL l)) = true
                · simp only [h6, if_true]
                  exact ih {pkg with depends := parse_depends ((trimL l).drop 8)} .top
                · simp only [h6, Bool.false_eq_true, if_false]
                  by_cases h7 : (("phase".data).isPrefixOf (trimL l)) = true
                  · simp only [h7, if_true]
                    cases hx : extract_phase_name (trimL l) with
                    | error e => rfl
                    | ok pn =>
                      by_cases h8 : ((trimL l).contains '{') = true
                      · simp only [h8, if_true]
                        exact ih pkg (.body (ofChars pn) [])
                      · simp only [h8, Bool.false_eq_true, if_false]
                        exact ih pkg (.seekBrace (ofChars pn))
                  · simp only [h7, Bool.false_eq_true, if_false]
                    exact ih pkg .top
    | seekBrace pn =>
      simp only [parseLoop, specHardFail, fmodeOf]
      by_cases h : (l.contains '{') = true
      · simp only [h, if_true]
        exact ih pkg (.body pn [])
      · simp only [h, Bool.false_eq_true, if_false]
        exact ih pkg (.seekBrace pn)
    | body pn cmds =>
      simp only [parseLoop, specHardFail, fmodeOf]
      by_cases h1 : ((trimL l).head? == some '}') = true
      · simp only [h1, if_true]
        exact ih {pkg with phases := pkg.phases ++ [⟨pn, cmds⟩]} .top
      · simp only [h1, Bool.false_eq_true, if_false]
        by_cases h2 : ((trimL l).isEmpty || (trimL l).head? == some '#') = true
        · simp only [h2, if_true]
          exact ih pkg (.body pn cmds)
        · simp only [h2, Bool.false_eq_true, if_false]
          cases hpc : parse_command (trimL l) with
          | ok c => exact ih pkg (.body pn (cmds ++ [c]))
          | error e => exact ih pkg (.body pn cmds)

/-- C4 (amended): `parse` fails exactly under `specHardFail` — the package
name missing/empty, a top-level key line with no extractable double-quoted
value, or a top-level `phase` directive line with no extractable quoted
phase name; in every other case a fully populated `Package` is returned. -/
theorem C4_amended (content : String) :
    isErr (parse content) = specHardFail (linesOf content) true FMode.top := by
  have h := parseLoop_isErr (linesOf content) emptyPackage .top
  simpa [parse, emptyPackage] using h

/-- C4 counterexample: an input whose package name extracts fine and whose
top-level key lines are all well formed still fails fatally, because its
`phase` line has no quoted name — a third hard-failure condition beyond the
claim's two. -/
theorem C4_counterexample :
    parse "package: \"x\"\nphase" = .error "Не удалось извлечь имя фазы" ∧
    extract_quoted_value ("package: \"x\"").data = .ok "x".data := by
  decide

theorem execCommand_quick {s : Simulator} {r : Rng} {c : Command}
    {out : Simulator × Nat × Rng} (hq : s.quick_mode = true)
    (h : execCommand s r c = some out) :
    out.1.quick_mode = true ∧ out.2.1 = 0 := by
  cases c <;>
    (try simp only [execCommand, hq, runTestMs, simOpMs, Nat.mul_zero,
      reduceIte, Option.some.injEq] at h) <;>
    (try split at h) <;>
    (try simp only [Option.some.injEq] at h) <;>
    first
      | (rw [← h]; exact ⟨hq, rfl⟩)
      | (rw [← h]; exact ⟨rfl, rfl⟩)
      | exact absurd h (by simp)

theorem runCommands_quick (cs : List Command) :
    ∀ (s : Simulator) (r : Rng) (out : Simulator × Nat × Rng),
      s.quick_mode = true → runCommands s r cs = some out →
      out.1.quick_mode = true ∧ out.2.1 = 0 := by
  induction cs with
  | nil =>
    intro s r out hq h
    simp only [runCommands, Option.some.injEq] at h
    rw [← h]
    exact ⟨hq, rfl⟩
  | cons c cs ih =>
    intro s r out hq h
    simp only [runCommands] at h
    cases hc : execCommand s r c with
    | none => simp [hc] at h
    | some o₁ =>
      obtain ⟨s₁, ms₁, r₁⟩ := o₁
      simp only [hc] at h
      cases hr : runCommands s₁ r₁ cs with
      | none => simp [hr] at h
      | some o₂ =>
        obtain ⟨s₂, ms₂, r₂⟩ := o₂
        simp only [hr, Option.some.injEq] at h
        have h₁ := execCommand_quick hq hc
        have h₂ := ih s₁ r₁ (s₂, ms₂, r₂) h₁.1 hr
        simp only at h₁ h₂
        rw [← h]
        exact ⟨h₂.1, by simp [h₁.2, h₂.2]⟩

theorem runPhases_quick (phs : List Phase) :
    ∀ (s : Simulator) (r : Rng) (out : Simulator × Nat × Rng),
      s.quick_mode = true → runPhases s r phs = some out →
      out.1.quick_mode = true ∧ out.2.1 = 0 := by
  induction phs with
  | nil =>
    intro s r out hq h
    simp only [runPhases, Option.some.injEq] at h
    rw [← h]
    exact ⟨hq, rfl⟩
  | cons ph phs ih =>
    intro s r out hq h
    simp only [runPhases] at h
    cases hc : runCommands s r ph.commands with
    | none => simp [hc] at h
    | some o₁ =>
      obtain ⟨s₁, ms₁, r₁⟩ := o₁
      simp only [hc] at h
      cases hr : runPhases s₁ r₁ phs with
      | none => simp [hr] at h
      | some o₂ =>
        obtain ⟨s₂, ms₂, r₂⟩ := o₂
        simp only [hr, Option.some.injEq] at h
        have h₁ := runCommands_quick ph.commands s r (s₁, ms₁, r₁) hq hc
        have h₂ := ih s₁ r₁ (s₂, ms₂, r₂) h₁.1 hr
        simp only at h₁ h₂
        rw [← h]
        exact ⟨h₂.1, by simp [h₁.2, h₂.2]⟩

/-- C8: in quick mode a run of any program sleeps for zero total
milliseconds (whenever the run completes), while logical results are applied
unchanged — in particular `progress 50` still sets the interpreter's
last-known progress value to 50 without sleeping. -/
theorem C8_quick_mode (pkg : Package) (s : Simulator) (r : Rng)
    (hq : s.quick_mode = true) :
    (∀ out : Simulator × Nat × Rng, runPackage s r pkg = some out → out.2.1 = 0) ∧
    execCommand s r (Command.Progress 50) = some ({s with progress := 50}, 0, r) := by
  constructor
  · intro out h
    exact (runPhases_quick pkg.phases s r out hq h).2
  · rfl

/-- C8 witness: a concrete quick-mode run — final progress 50, zero sleep. -/
theorem C8_witness :
    ∃ out : Simulator × Nat × Rng,
      runPackage ⟨true, false, 0⟩ rZero demoC8 = some out ∧ out.2.1 = 0 ∧
      out.1 = ⟨true, false, 50⟩ :=
  ⟨(⟨true, false, 50⟩, 0, rZero), rfl,
    (C8_quick_mode demoC8 ⟨true, false, 0⟩ rZero rfl).1 _ rfl, rfl⟩

theorem findIdx_append_left {α : Type} (p : α → Bool) (l₁ l₂ : List α)
    (h : ∃ x ∈ l₁, p x = true) :
    (l₁ ++ l₂).findIdx p = l₁.findIdx p := by
  induction l₁ with
  | nil => simp at h
  | cons a t ih =>
    by_cases hpa : p a = true
    · simp [List.findIdx_cons, hpa]
    · simp only [List.cons_append, List.findIdx_cons,
        Bool.eq_false_iff.mpr hpa, cond_false]
      rcases h with ⟨x, hx, hpx⟩
      rcases List.mem_cons.mp hx with rfl | hx'
      · exact absurd hpx hpa
      · rw [ih ⟨x, hx', hpx⟩]

theorem findIdx_append_right {α : Type} (p : α → Bool) (l₁ l₂ : List α)
    (h : ∀ x ∈ l₁, p x = false) :
    (l₁ ++ l₂).findIdx p = l₁.length + l₂.findIdx p := by
  induction l₁ with
  | nil => simp
  | cons a t ih =>
    simp only [List.cons_append, List.findIdx_cons, h a (by simp), cond_false,
      ih fun x hx => h x (by simp [hx]), List.length_cons]
    omega

theorem pkgNames_append (l₁ l₂ : List Package) :
    pkgNames (l₁ ++ l₂) = pkgNames l₁ ++ pkgNames l₂ := List.map_append _ _ _

theorem mem_pkgNames {order : List Package} {n : String} :
    n ∈ pkgNames order ↔ ∃ P ∈ order, P.name = n := by
  simp [pkgNames, List.mem_map]

theorem idxOfName_append_mem (order ext : List Package) (n : String)
    (h : n ∈ pkgNames order) :
    idxOfName (order ++ ext) n = idxOfName order n := by
  obtain ⟨P, hP, hname⟩ := mem_pkgNames.mp h
  exact findIdx_append_left _ order ext ⟨P, hP, beq_iff_eq.mpr hname⟩

theorem idxOfName_append_self (order : List Package) (pkg : Package)
    (h : pkg.name ∉ pkgNames order) :
    idxOfName (order ++ [pkg]) pkg.name = order.length := by
  have hall : ∀ x ∈ order, (x.name == pkg.name) = false := by
    intro x hx
    refine beq_eq_false_iff_ne.mpr fun hEq => h ?_
    exact mem_pkgNames.mpr ⟨x, hx, hEq⟩
  rw [idxOfName, findIdx_append_right _ order [pkg] hall]
  simp [List.findIdx_cons]

theorem idxOfName_lt_length (order : List Package) (n : String)
    (h : n ∈ pkgNames order) : idxOfName order n < order.length := by
  obtain ⟨P, hP, hname⟩ := mem_pkgNames.mp h
  exact List.findIdx_lt_length_of_exists ⟨P, hP, beq_iff_eq.mpr hname⟩

theorem goodOrder_append (fs : FS) (base : String) (order : List Package)
    (pkg : Package) (hg : GoodOrder fs base order)
    (hnew : pkg.name ∉ pkgNames order)
    (hdeps : ∀ ref ∈ pkg.depends, ∀ D,
      load_package fs (resolve_path base ref) = .ok D → D.name ∈ pkgNames order) :
    GoodOrder fs base (order ++ [pkg]) := by
  intro P hP ref href D hload
  rcases List.mem_append.mp hP with hP' | hP'
  · obtain ⟨hm, hlt⟩ := hg P hP' ref href D hload
    have hPn : P.name ∈ pkgNames order := mem_pkgNames.mpr ⟨P, hP', rfl⟩
    refine ⟨by rw [pkgNames_append]; exact List.mem_append_left _ hm, ?_⟩
    rw [idxOfName_append_mem _ _ _ hm, idxOfName_append_mem _ _ _ hPn]
    exact hlt
  · rcases List.mem_singleton.mp hP' with rfl
    have hm := hdeps ref href D hload
    refine ⟨by rw [pkgNames_append]; exact List.mem_append_left _ hm, ?_⟩
    rw [idxOfName_append_mem _ _ _ hm, idxOfName_append_self _ _ hnew]
    exact idxOfName_lt_length _ _ hm

theorem visitDepsWith_spec (fs : FS) (base : String)
    (visit : Package → ResolveSt → Option (Except String ResolveSt))
    (hv : VisitSpec fs base visit) :
    ∀ (deps : List String) (σ σ' : ResolveSt), ResolveInv fs base σ →
      visitDepsWith fs base visit deps σ = some (.ok σ') →
      σ'.in_stack = σ.in_stack ∧ (∃ ext, σ'.order = σ.order ++ ext) ∧
      (∀ n ∈ σ.visited, n ∈ σ'.visited) ∧ ResolveInv fs base σ' ∧
      (∀ d ∈ deps, ∀ D, load_package fs (resolve_path base d) = .ok D →
        D.name ∈ σ'.visited) := by
  intro deps
  induction deps with
  | nil =>
    intro σ σ' hinv h
    simp only [visitDepsWith, Option.some.injEq, Except.ok.injEq] at h
    subst h
    exact ⟨rfl, ⟨[], by simp⟩, fun n hn => hn, hinv, by simp⟩
  | cons d rest ih =>
    intro σ σ' hinv h
    simp only [visitDepsWith] at h
    cases hload : load_package fs (resolve_path base d) with
    | error e =>
      simp only [hload] at h
      obtain ⟨hstk, hord, hmono, hinv', hrest⟩ := ih σ σ' hinv h
      refine ⟨hstk, hord, hmono, hinv', ?_⟩
      intro d' hd' D hD
      rcases List.mem_cons.mp hd' with rfl | hd''
      · rw [hload] at hD
        exact absurd hD (by simp)
      · exact hrest d' hd'' D hD
    | ok dp =>
      simp only [hload] at h
      cases hv1 : visit dp σ with
      | none => simp [hv1] at h
      | some r =>
        cases r with
        | error e => simp [hv1] at h
        | ok σ₁ =>
          simp only [hv1] at h
          obtain ⟨hstk₁, ⟨ext₁, hord₁⟩, hmono₁, hname₁, hinv₁⟩ := hv dp σ σ₁ hinv hv1
          obtain ⟨hstk₂, ⟨ext₂, hord₂⟩, hmono₂, hinv₂, hrest₂⟩ := ih σ₁ σ' hinv₁ h
          refine ⟨hstk₂.trans hstk₁, ⟨ext₁ ++ ext₂, by rw [hord₂, hord₁, List.append_assoc]⟩,
            fun n hn => hmono₂ n (hmono₁ n hn), hinv₂, ?_⟩
          intro d' hd' D hD
          rcases List.mem_cons.mp hd' with rfl | hd''
          · rw [hload] at hD
            simp only [Except.ok.injEq] at hD
            subst hD
            exact hmono₂ _ hname₁
          · exact hrest₂ d' hd'' D hD

theorem visit_package_spec (fs : FS) (base : String) :
    ∀ fuel : Nat, VisitSpec fs base (visit_package fs base fuel) := by
  intro fuel
  induction fuel with
  | zero =>
    intro pkg σ σ' hinv h
    exact absurd h (by simp [visit_package])
  | succ fuel ih =>
    intro pkg σ σ' hinv h
    simp only [visit_package] at h
    by_cases h1 : pkg.name ∈ σ.in_stack
    · rw [if_pos h1] at h
      exact absurd h (by simp)
    · rw [if_neg h1] at h
      by_cases h2 : pkg.name ∈ σ.visited
      · rw [if_pos h2] at h
        simp only [Option.some.injEq, Except.ok.injEq] at h
        subst h
        exact ⟨rfl, ⟨[], by simp⟩, fun n hn => hn, h2, hinv⟩
      · rw [if_neg h2] at h
        have hinv₁ : ResolveInv fs base {σ with in_stack := pkg.name :: σ.in_stack} := by
          refine ⟨hinv.vis_names, hinv.names_nodup, ?_, hinv.good⟩
          intro n hn
          rcases List.mem_cons.mp hn with rfl | hn'
          · exact h2
          · exact hinv.stack_disj n hn'
        cases hds : visitDepsWith fs base (visit_package fs base fuel) pkg.depends
            {σ with in_stack := pkg.name :: σ.in_stack} with
        | none => simp [hds] at h
        | some r =>
          cases r with
          | error e => simp [hds] at h
          | ok σ₂ =>
            simp only [hds, Option.some.injEq, Except.ok.injEq] at h
            obtain ⟨hstk₂, ⟨ext, hord₂⟩, hmono₂, hinv₂, hdeps₂⟩ :=
              visitDepsWith_spec fs base _ ih pkg.depends _ σ₂ hinv₁ hds
            simp only at hstk₂ hord₂ hmono₂
            have hpkg_stk₂ : pkg.name ∈ σ₂.in_stack := by
              rw [hstk₂]; exact List.mem_cons_self _ _
            have hpkg_vis₂ : pkg.name ∉ σ₂.visited := hinv₂.stack_disj _ hpkg_stk₂
            have hpkg_names₂ : pkg.name ∉ pkgNames σ₂.order :=
              fun hc => hpkg_vis₂ ((hinv₂.vis_names _).mpr hc)
            have herase : σ₂.in_stack.erase pkg.name = σ.in_stack := by
              rw [hstk₂]; exact List.erase_cons_head _ _
            subst h
            refine ⟨herase, ⟨ext ++ [pkg], by rw [hord₂, List.append_assoc]⟩,
              fun n hn => List.mem_cons_of_mem _ (hmono₂ n hn),
              List.mem_cons_self _ _, ?_⟩
            refine ⟨?_, ?_, ?_, ?_⟩
            · intro n
              simp only [List.mem_cons, pkgNames_append, List.mem_append]
              constructor
              · rintro (rfl | hn)
                · right; simp [pkgNames]
                · left; exact (hinv₂.vis_names n).mp hn
              · rintro (hn | hn)
                · right; exact (hinv₂.vis_names n).mpr hn
                · left; simpa [pkgNames] using hn
            · rw [pkgNames_append]
              rw [List.nodup_append]
              refine ⟨hinv₂.names_nodup, by simp [pkgNames], ?_⟩
              intro x hx hx'
              simp only [pkgNames, List.map_cons, List.map_nil,
                List.mem_singleton] at hx'
              subst hx'
              exact hpkg_names₂ hx
            · intro n hn
              simp only [herase] at hn
              have hn₂ : n ∈ σ₂.in_stack := by
                rw [hstk₂]; exact List.mem_cons_of_mem _ hn
              intro hc
              rcases List.mem_cons.mp hc with rfl | hc'
              · exact h1 hn
              · exact hinv₂.stack_disj n hn₂ hc'
            · refine goodOrder_append fs base σ₂.order pkg hinv₂.good hpkg_names₂ ?_
              intro ref href D hload
              exact (hinv₂.vis_names _).mp (hdeps₂ ref href D hload)

theorem resolveInv_init (fs : FS) (base : String) :
    ResolveInv fs base ⟨[], [], []⟩ := by
  refine ⟨by simp [pkgNames], by simp [pkgNames], by simp, ?_⟩
  intro P hP
  exact absurd hP (by simp)

theorem visitRoots_inv (fs : FS) (base : String) (fuel : Nat) :
    ∀ (roots : List Package) (σ σ' : ResolveSt), ResolveInv fs base σ →
      visitRoots fs base fuel roots σ = some (.ok σ') → ResolveInv fs base σ' := by
  intro roots
  induction roots with
  | nil =>
    intro σ σ' hinv h
    simp only [visitRoots, Option.some.injEq, Except.ok.injEq] at h
    subst h
    exact hinv
  | cons p rest ih =>
    intro σ σ' hinv h
    simp only [visitRoots] at h
    cases hv : visit_package fs base fuel p σ with
    | none => simp [hv] at h
    | some r =>
      cases r with
      | error e => simp [hv] at h
      | ok σ₁ =>
        simp only [hv] at h
        exact ih σ₁ σ' (visit_package_spec fs base fuel p σ σ₁ hinv hv).2.2.2.2 h

theorem get_install_order_ok (fs : FS) (base : String) (fuel : Nat)
    (roots order : List Package)
    (h : get_install_order fs base fuel roots = some (.ok order)) :
    ∃ σ : ResolveSt, visitRoots fs base fuel roots ⟨[], [], []⟩ = some (.ok σ) ∧
      σ.order = order := by
  unfold get_install_order at h
  cases hr : visitRoots fs base fuel roots ⟨[], [], []⟩ with
  | none => simp [hr] at h
  | some r =>
    cases r with
    | error e => simp [hr] at h
    | ok σ =>
      simp only [hr, Option.some.injEq, Except.ok.injEq] at h
      exact ⟨σ, rfl, h⟩

/-- C1: in every resolved run order, for every member program `P` and every
dependency reference of `P` that loads and parses successfully into a program
`D`, the position of `D`'s name strictly precedes the position of `P`;
references that fail to load impose no constraint (they are skipped by
`visit_package` after a warning). -/
theorem C1_dependencies_precede (fs : FS) (base : String) (fuel : Nat)
    (roots order : List Package)
    (h : get_install_order fs base fuel roots = some (.ok order)) :
    ∀ P ∈ order, ∀ ref ∈ P.depends, ∀ D,
      load_package fs (resolve_path base ref) = .ok D →
      idxOfName order D.name < idxOfName order P.name := by
  obtain ⟨σ, hr, horder⟩ := get_install_order_ok fs base fuel roots order h
  have hinv := visitRoots_inv fs base fuel roots _ _ (resolveInv_init fs base) hr
  intro P hP ref href D hload
  subst horder
  exact (hinv.good P hP ref href D hload).2

/-- C1 witness: a root `a` depending on the file of `b` resolves to the order
`[b, a]`, and `b`'s position precedes `a`'s. -/
theorem C1_witness :
    pkgA1 ∈ [pkgB1, pkgA1] ∧
    idxOfName [pkgB1, pkgA1] pkgB1.name < idxOfName [pkgB1, pkgA1] pkgA1.name := by
  refine ⟨by decide, ?_⟩
  exact C1_dependencies_precede fsC1 "." 5 [pkgA1] [pkgB1, pkgA1] (by decide)
    pkgA1 (by decide) "/b.inst" (by decide) pkgB1 (by decide)

/-- C7: every resolved run order has pairwise distinct declared names, and on
a concrete pair of same-named files the first one visited wins the single
scheduling slot (`/x1.inst`'s package enters the order, `/x2.inst`'s is
skipped as already scheduled). -/
theorem C7_names_unique :
    (∀ (fs : FS) (base : String) (fuel : Nat) (roots order : List Package),
      get_install_order fs base fuel roots = some (.ok order) →
      (pkgNames order).Nodup) ∧
    get_install_order fsC7 "." 5 [pkgR7] = some (.ok [pkgX71, pkgR7]) := by
  constructor
  · intro fs base fuel roots order h
    obtain ⟨σ, hr, horder⟩ := get_install_order_ok fs base fuel roots order h
    have hinv := visitRoots_inv fs base fuel roots _ _ (resolveInv_init fs base) hr
    rw [← horder]
    exact hinv.names_nodup
  · decide

/-- C7 witness: the general uniqueness statement applied to the concrete
same-name run of the second conjunct. -/
theorem C7_witness : (pkgNames [pkgX71, pkgR7]).Nodup :=
  C7_names_unique.1 fsC7 "." 5 [pkgR7] _ C7_names_unique.2

/-- C5 counterexample: `pkgA5` and `pkgB5` mutually refer to each other's
files (both hypotheses of the claim hold), yet resolving the root list
`[pkgA5dup, pkgA5]` — which contains `pkgA5` — returns a run order, not a
`CycleError`: the dependency-free first root shares the name `"a"`, so
visiting `pkgA5` is skipped as already scheduled before the cycle is ever
entered. -/
theorem C5_counterexample :
    ("/b.inst" ∈ pkgA5.depends ∧
      load_package fsC5 (resolve_path "." "/b.inst") = .ok pkgB5) ∧
    ("/a.inst" ∈ pkgB5.depends ∧
      load_package fsC5 (resolve_path "." "/a.inst") = .ok pkgA5) ∧
    pkgA5 ∈ [pkgA5dup, pkgA5] ∧
    get_install_order fsC5 "." 5 [pkgA5dup, pkgA5] = some (.ok [pkgA5dup]) := by
  decide

theorem visit_package_succ (fs : FS) (base : String) (fuel : Nat) (pkg : Package)
    (o : List Package) (v k : List String) :
    visit_package fs base (fuel + 1) pkg ⟨o, v, k⟩ =
      if pkg.name ∈ k then some (.error (cycleMsg pkg.name))
      else if pkg.name ∈ v then some (.ok ⟨o, v, k⟩)
      else
        match visitDepsWith fs base (visit_package fs base fuel) pkg.depends
            ⟨o, v, pkg.name :: k⟩ with
        | none => none
        | some (.error e) => some (.error e)
        | some (.ok σ₂) =>
          some (.ok ⟨σ₂.order ++ [pkg], pkg.name :: σ₂.visited,
            σ₂.in_stack.erase pkg.name⟩) := rfl

/-- C5 (amended): when the cycle is actually entered — `A` is the sole root,
`A`'s single reference loads `B`, `B`'s single reference loads `A`, and the
two names differ — resolution always returns the `CycleError` naming `A`
(the repeated program on the active path) and never any run order, for every
fuel that lets the recursion reach the repeat. -/
theorem C5_amended (fs : FS) (base : String) (A B : Package) (rA rB : String)
    (fuel : Nat) (hA : A.depends = [rA]) (hB : B.depends = [rB])
    (hloadA : load_package fs (resolve_path base rA) = .ok B)
    (hloadB : load_package fs (resolve_path base rB) = .ok A)
    (hne : A.name ≠ B.name) (hfuel : 3 ≤ fuel) :
    get_install_order fs base fuel [A] = some (.error (cycleMsg A.name)) := by
  obtain ⟨f, rfl⟩ : ∃ f, fuel = f + 1 + 1 + 1 := ⟨fuel - 3, by omega⟩
  have hBA : B.name ∉ ([A.name] : List String) := by
    simp only [List.mem_singleton]
    exact fun hEq => hne hEq.symm
  have step3 : visit_package fs base (f + 1) A ⟨[], [], [B.name, A.name]⟩ =
      some (.error (cycleMsg A.name)) := by
    rw [visit_package_succ, if_pos (by simp)]
  have step2 : visit_package fs base (f + 1 + 1) B ⟨[], [], [A.name]⟩ =
      some (.error (cycleMsg A.name)) := by
    rw [visit_package_succ, if_neg hBA, if_neg (by simp), hB]
    simp only [visitDepsWith, hloadB, step3]
  have step1 : visit_package fs base (f + 1 + 1 + 1) A ⟨[], [], []⟩ =
      some (.error (cycleMsg A.name)) := by
    rw [visit_package_succ, if_neg (by simp), if_neg (by simp), hA]
    simp only [visitDepsWith, hloadA, step2]
  simp only [get_install_order, visitRoots, step1]

/-- C5 witness: the amended statement at the concrete two-file cycle. -/
theorem C5_witness :
    get_install_order fsC5 "." 5 [pkgA5] = some (.error (cycleMsg "a")) := by
  have h := C5_amended fsC5 "." pkgA5 pkgB5 "/b.inst" "/a.inst" 5
    (by decide) (by decide) (by decide) (by decide) (by decide) (by omega)
  simpa [pkgA5] using h

theorem mainLoadLoop_base (fs : FS) :
    ∀ (files : List String) (b : String) (ps : List Package) (base : String)
      (pkgs : List Package),
      mainLoadLoop fs files b ps = .ok (base, pkgs) →
      base = files.foldl (fun acc f => (pathParent f).getD acc) b := by
  intro files
  induction files with
  | nil =>
    intro b ps base pkgs h
    simp only [mainLoadLoop, Except.ok.injEq, Prod.mk.injEq] at h
    simp [← h.1]
  | cons f rest ih =>
    intro b ps base pkgs h
    simp only [mainLoadLoop] at h
    cases hlk : fs.lookup f with
    | none => simp [hlk] at h
    | some content =>
      simp only [hlk] at h
      cases hp : parse content with
      | error e => simp [hp] at h
      | ok pkg =>
        simp only [hp] at h
        rw [List.foldl_cons]
        exact ih ((pathParent f).getD b) (ps ++ [pkg]) base pkgs h

/-- C3 counterexample: with two root files in different directories, both
read and parsed successfully, the run's base directory is the containing
directory of the LAST file (`d2`), not of the first (`d1`): `main`
re-assigns `base_path` on every loop iteration. -/
theorem C3_counterexample :
    mainLoad fsC3 ["d1/a.inst", "d2/b.inst"] = .ok ("d2", [pkgA3, pkgB3]) ∧
    pathParent "d1/a.inst" = some "d1" ∧
    ("d2" : String) ≠ "d1" := by
  decide

/-- C3 (amended): the base directory is re-assigned once per root file — its
final value is the containing directory of the last root file that has one
(starting from `"."`) — and every `DependencyRef` of every program in the run
resolves against that single final base: absolute references verbatim,
relative references joined to it, regardless of which file declared them. -/
theorem C3_amended (fs : FS) (files : List String) (base : String)
    (pkgs : List Package) (h : mainLoad fs files = .ok (base, pkgs)) :
    base = files.foldl (fun acc f => (pathParent f).getD acc) "." ∧
    (∀ dref : String,
      (isAbsolutePath dref = true → resolve_path base dref = dref) ∧
      (isAbsolutePath dref = false → resolve_path base dref = pathJoin base dref)) := by
  refine ⟨mainLoadLoop_base fs files "." [] base pkgs h, ?_⟩
  intro dref
  constructor
  · intro habs
    simp [resolve_path, habs]
  · intro hnabs
    simp [resolve_path, hnabs]

/-- C3 witness: the amended statement at the concrete two-directory run. -/
theorem C3_witness :
    ("d2" : String) =
      ["d1/a.inst", "d2/b.inst"].foldl (fun acc f => (pathParent f).getD acc) "." ∧
    resolve_path "d2" "sub/c.inst" = pathJoin "d2" "sub/c.inst" := by
  have h := C3_amended fsC3 ["d1/a.inst", "d2/b.inst"] "d2" [pkgA3, pkgB3] (by decide)
  exact ⟨h.1, (h.2 "sub/c.inst").2 (by decide)⟩
